import Mathlib

/-!
Verification of the training/evaluation loop in `synthetic_train.py`
(vae-lagging-encoder).

The script drives a VAE training loop: per-batch gradient steps with
loss accumulators, periodic evaluation with best-checkpoint selection,
and scheduled learning-rate decay.  The neural-network forward/backward
passes, gradient clipping and optimizer arithmetic are delegated to the
tensor framework; they are modelled here as an abstract `Framework`
record of opaque operations on abstract parameter / gradient / moment
types.  Numeric values are modelled as exact rationals (the script's
floats, idealised), and perplexity uses the real exponential.

The source file contains a few evident transcription slips (`hae` for
`vae`, `torch.vae(...)` for the checkpoint save, a C-style `!` negation,
a missing comma in an iterator call); following the repository's own
design notes, the model treats `vae` as the single model object and the
save call as a parameter-serialization call.
-/

namespace SyntheticTrain

/-- Python's float modulo, idealised over ℚ: `a % b = a - b * floor (a / b)`
(for `b ≠ 0`; Lean's convention `a / 0 = 0` makes `pyMod a 0 = a`). -/
def pyMod (a b : ℚ) : ℚ := a - b * ⌊a / b⌋

/-- A sentence as produced by the loader: its token ids, with the start and
end symbols already included. -/
structure Sentence where
  tokens : List ℤ
deriving DecidableEq

/-- One batch from `data_iter`: the (padded) sentences and the parallel list
of true lengths (`sents_len`, counting both the start and end symbols). -/
structure Batch where
  data : List Sentence
  sentsLen : List ℤ
deriving DecidableEq

/-- The command-line hyperparameters used by the loop. -/
structure Args where
  epochs : ℕ
  batch_size : ℕ
  lr : ℚ
  lr_decay : ℚ
  clip_grad : ℚ
  niter : ℕ
  nepoch : ℕ
deriving DecidableEq

/-- Optimizer state: the learning rate it was constructed with and its
adaptive-moment history (abstract type `M`). -/
structure Optimizer (M : Type) where
  lr : ℚ
  moments : M

/-- The external tensor-framework collaborators: `lossFn` is `vae.loss`
(per-sequence reconstruction and KL losses for a batch), `backward`
produces gradients from the scalar total loss, `clipFn` is
`clip_grad_norm`, `stepFn` is `optimizer.step()` (returning updated
parameters and updated moments), and `initM` is the moment state a
freshly constructed optimizer starts from. -/
structure Framework (P G M : Type) where
  lossFn : P → Batch → List ℚ × List ℚ
  backward : P → ℚ → G
  clipFn : G → ℚ → G
  stepFn : P → Option G → Optimizer M → P × M
  initM : M

/-- One batch's word-count contribution `(sents_len - 1).sum()` — the start
symbol is not predicted, so each sequence contributes `true_length - 1`. -/
def sentsLenMinusOneSum (b : Batch) : ℤ :=
  (b.sentsLen.map (fun l => l - 1)).sum

/-- The four accumulators local to the evaluation routine `test`. -/
@[ext]
structure EvalAcc where
  report_kl_loss : ℚ
  report_rec_loss : ℚ
  report_num_words : ℤ
  report_num_sents : ℕ
deriving DecidableEq

variable {P G M : Type}

/-- One iteration of the loop body of `test` (source lines 71–95). -/
def testStep (fw : Framework P G M) (p : P) (acc : EvalAcc) (b : Batch) : EvalAcc :=
  let batch_size := b.data.length
  let acc := { acc with report_num_sents := acc.report_num_sents + batch_size }
  -- not predict start symbol
  let acc := { acc with report_num_words := acc.report_num_words + sentsLenMinusOneSum b }
  let lrkl := fw.lossFn p b
  let loss_rc := lrkl.1.sum
  let loss_kl := lrkl.2.sum
  { acc with report_rec_loss := acc.report_rec_loss + loss_rc,
             report_kl_loss := acc.report_kl_loss + loss_kl }

/-- The accumulators of `test` after iterating all batches. -/
def testAcc (fw : Framework P G M) (p : P) (td : List Batch) : EvalAcc :=
  td.foldl (testStep fw p) ⟨0, 0, 0, 0⟩

/-- The evaluation routine `test` (source lines 67–108): returns
`(test_loss, nll, kl, ppl)`. -/
noncomputable def test (fw : Framework P G M) (p : P) (td : List Batch) :
    ℚ × ℚ × ℚ × ℝ :=
  let acc := testAcc fw p td
  let test_loss := (acc.report_rec_loss + acc.report_kl_loss) / (acc.report_num_sents : ℚ)
  let nll := (acc.report_kl_loss + acc.report_rec_loss) / (acc.report_num_sents : ℚ)
  let kl := acc.report_kl_loss / (acc.report_num_sents : ℚ)
  let ppl := Real.exp ((nll : ℝ) * (acc.report_num_sents : ℝ) / (acc.report_num_words : ℝ))
  (test_loss, nll, kl, ppl)

/-- Totals over the evaluation data, written directly as sums. -/
def totalRec (fw : Framework P G M) (p : P) (td : List Batch) : ℚ :=
  (td.map (fun b => (fw.lossFn p b).1.sum)).sum

/-- Total KL loss over the evaluation data. -/
def totalKl (fw : Framework P G M) (p : P) (td : List Batch) : ℚ :=
  (td.map (fun b => (fw.lossFn p b).2.sum)).sum

/-- Total number of sentences over the evaluation data. -/
def totalSents (td : List Batch) : ℕ :=
  (td.map (fun b => b.data.length)).sum

/-- Total number of predicted words over the evaluation data. -/
def totalWords (td : List Batch) : ℤ :=
  (td.map sentsLenMinusOneSum).sum

theorem testAcc_foldl_eq (fw : Framework P G M) (p : P) (td : List Batch)
    (acc : EvalAcc) :
    td.foldl (testStep fw p) acc =
      ⟨acc.report_kl_loss + totalKl fw p td,
       acc.report_rec_loss + totalRec fw p td,
       acc.report_num_words + totalWords td,
       acc.report_num_sents + totalSents td⟩ := by
  induction td generalizing acc with
  | nil => simp [totalKl, totalRec, totalWords, totalSents]
  | cons b td ih =>
    simp only [List.foldl_cons, ih, totalKl, totalRec, totalWords, totalSents,
      List.map_cons, List.sum_cons, testStep]
    ext <;> dsimp <;> ring

theorem testAcc_eq (fw : Framework P G M) (p : P) (td : List Batch) :
    testAcc fw p td =
      ⟨totalKl fw p td, totalRec fw p td, totalWords td, totalSents td⟩ := by
  simpa using testAcc_foldl_eq fw p td ⟨0, 0, 0, 0⟩

/-- Observable effectful framework operations of one training step, in the
order the step performs them. -/
inductive Event
  | zeroGrad
  | computeLoss (rc kl : ℚ)
  | backwardLoss (l : ℚ)
  | clipGradNorm (c : ℚ)
  | optStep
deriving DecidableEq

/-- The whole mutable state of `main`'s training loop (source lines 163–259):
model parameters, current gradients, optimizer, iteration counter, current
learning rate, best-checkpoint record, per-epoch accumulators and the
train/eval mode flag.  The `…Count` fields and `trace` are ghost
instrumentation counting optimizer steps, log lines, evaluation calls and
checkpoint saves, and recording the framework calls of each step. -/
structure RunState (P G M : Type) where
  params : P
  grad : Option G
  optimizer : Optimizer M
  iter_ : ℕ
  lr_ : ℚ
  best_loss : ℚ
  best_nll : ℚ
  best_kl : ℚ
  best_ppl : ℝ
  report_rec_loss : ℚ
  report_kl_loss : ℚ
  report_num_words : ℤ
  report_num_sents : ℕ
  training : Bool
  optStepCount : ℕ
  logCount : ℕ
  evalCount : ℕ
  saveCount : ℕ
  trace : List Event

/-- One training batch (source lines 183–232): accumulate word/sentence
counts, zero gradients, compute and sum the two losses, form
`(loss_rc + kl_weight * loss_kl) / batch_size` with `kl_weight = 1.0`,
accumulate the loss totals, back-propagate, clip, take one optimizer step,
and log every `niter` iterations. -/
def trainStep (fw : Framework P G M) (args : Args) (st : RunState P G M)
    (b : Batch) : RunState P G M :=
  let batch_size := b.data.length
  -- not predict start symbol
  let st := { st with report_num_words := st.report_num_words + sentsLenMinusOneSum b }
  let st := { st with report_num_sents := st.report_num_sents + batch_size }
  -- optimizer.zero_grad()
  let st := { st with grad := (none : Option G), trace := st.trace ++ [Event.zeroGrad] }
  let lrkl := fw.lossFn st.params b
  let loss_rc := lrkl.1.sum
  let loss_kl := lrkl.2.sum
  let st := { st with trace := st.trace ++ [Event.computeLoss loss_rc loss_kl] }
  let kl_weight : ℚ := 1
  let loss := (loss_rc + kl_weight * loss_kl) / (batch_size : ℚ)
  let st := { st with report_rec_loss := st.report_rec_loss + loss_rc,
                      report_kl_loss := st.report_kl_loss + loss_kl }
  -- loss.backward()
  let st := { st with grad := some (fw.backward st.params loss),
                      trace := st.trace ++ [Event.backwardLoss loss] }
  -- clip_grad_norm
  let st := { st with grad := st.grad.map (fun g => fw.clipFn g args.clip_grad),
                      trace := st.trace ++ [Event.clipGradNorm args.clip_grad] }
  -- optimizer.step()
  let pm := fw.stepFn st.params st.grad st.optimizer
  let st := { st with params := pm.1,
                      optimizer := { st.optimizer with moments := pm.2 },
                      trace := st.trace ++ [Event.optStep],
                      optStepCount := st.optStepCount + 1 }
  let st := if st.iter_ % args.niter = 0
            then { st with logCount := st.logCount + 1 } else st
  { st with iter_ := st.iter_ + 1 }

/-- The best-checkpoint update (source lines 242–248): on strict improvement
record the four evaluation statistics and save the parameters. -/
noncomputable def updateBest (r : ℚ × ℚ × ℚ × ℝ) (st : RunState P G M) :
    RunState P G M :=
  if r.1 < st.best_loss then
    { st with best_loss := r.1, best_nll := r.2.1, best_kl := r.2.2.1,
              best_ppl := r.2.2.2, saveCount := st.saveCount + 1 }
  else st

/-- The periodic-evaluation block (source lines 234–250): switch to eval
mode, run `test` under `no_grad`, update the best record, switch back. -/
noncomputable def evalBlock (fw : Framework P G M) (testData : List Batch)
    (st : RunState P G M) : RunState P G M :=
  let st := { st with training := false }        -- vae.eval()
  let r := test fw st.params testData            -- with torch.no_grad(): test(...)
  let st := { st with evalCount := st.evalCount + 1 }
  let st := updateBest r st
  { st with training := true }                   -- vae.train()

/-- The decay schedule `args.epochs / 5` (source line 132; true division). -/
def schedule (args : Args) : ℚ := (args.epochs : ℚ) / 5

/-- The learning-rate decay block (source lines 252–259): multiply the rate
by `lr_decay` and rebuild the optimizer from scratch (fresh moments). -/
def decayBlock (fw : Framework P G M) (args : Args) (st : RunState P G M) :
    RunState P G M :=
  let lr2 := st.lr_ * args.lr_decay
  { st with lr_ := lr2, optimizer := { lr := lr2, moments := fw.initM } }

/-- Per-epoch accumulator reset (source lines 181–182). -/
def epochReset (st : RunState P G M) : RunState P G M :=
  { st with report_kl_loss := 0, report_rec_loss := 0,
            report_num_words := 0, report_num_sents := 0 }

/-- The body of `for epoch in range(args.epochs)` (source lines 180–259). -/
noncomputable def epochStep (fw : Framework P G M) (args : Args)
    (trainData testData : List Batch) (epoch : ℕ) (st : RunState P G M) :
    RunState P G M :=
  let st := epochReset st
  let st := trainData.foldl (trainStep fw args) st
  let st := if epoch % args.nepoch = 0 then evalBlock fw testData st else st
  if pyMod ((epoch : ℚ) + 1) (schedule args) = 0 then decayBlock fw args st else st

/-- The initial loop state (source lines 163–172). -/
def initState (fw : Framework P G M) (args : Args) (p0 : P) : RunState P G M :=
  { params := p0, grad := none,
    optimizer := { lr := args.lr, moments := fw.initM },
    iter_ := 0, lr_ := args.lr,
    best_loss := 10000, best_nll := 0, best_kl := 0, best_ppl := 0,
    report_rec_loss := 0, report_kl_loss := 0,
    report_num_words := 0, report_num_sents := 0,
    training := true,
    optStepCount := 0, logCount := 0, evalCount := 0, saveCount := 0,
    trace := [] }

/-- The state after the first `n` epochs. -/
noncomputable def runEpochs (fw : Framework P G M) (args : Args)
    (trainData testData : List Batch) : ℕ → RunState P G M → RunState P G M
  | 0, st => st
  | n + 1, st => epochStep fw args trainData testData n
      (runEpochs fw args trainData testData n st)

/-- The whole training run of `main`. -/
noncomputable def runMain (fw : Framework P G M) (args : Args)
    (trainData testData : List Batch) (p0 : P) : RunState P G M :=
  runEpochs fw args trainData testData args.epochs (initState fw args p0)

/-- Modelled from the spec: `MonoTextData.data_iter` (the `datasets` module
is not under `src/`) — "exposes a lazy sequence of batches (padded token-id
matrices plus per-sequence lengths)", yielding the corpus as consecutive
groups of `batch_size` sentences, `ceil(n / batch_size)` batches in all,
each with its parallel list of true lengths (start and end symbols
included). -/
def chunkFuel (bs : ℕ) : ℕ → List Sentence → List (List Sentence)
  | 0, _ => []
  | _, [] => []
  | fuel + 1, xs => xs.take bs :: chunkFuel bs fuel (xs.drop bs)

/-- Modelled from the spec: the batches `data_iter` yields for a corpus. -/
def dataIter (corpus : List Sentence) (bs : ℕ) : List Batch :=
  (chunkFuel bs corpus.length corpus).map
    (fun c => ⟨c, c.map (fun s => (s.tokens.length : ℤ))⟩)

section ProjectionLemmas

variable (fw : Framework P G M) (args : Args) (st : RunState P G M) (b : Batch)

@[simp] theorem trainStep_lr : (trainStep fw args st b).lr_ = st.lr_ := by
  simp only [trainStep]; split <;> rfl

@[simp] theorem trainStep_best_loss :
    (trainStep fw args st b).best_loss = st.best_loss := by
  simp only [trainStep]; split <;> rfl

@[simp] theorem trainStep_best_nll :
    (trainStep fw args st b).best_nll = st.best_nll := by
  simp only [trainStep]; split <;> rfl

@[simp] theorem trainStep_best_kl :
    (trainStep fw args st b).best_kl = st.best_kl := by
  simp only [trainStep]; split <;> rfl

@[simp] theorem trainStep_best_ppl :
    (trainStep fw args st b).best_ppl = st.best_ppl := by
  simp only [trainStep]; split <;> rfl

@[simp] theorem trainStep_saveCount :
    (trainStep fw args st b).saveCount = st.saveCount := by
  simp only [trainStep]; split <;> rfl

@[simp] theorem trainStep_evalCount :
    (trainStep fw args st b).evalCount = st.evalCount := by
  simp only [trainStep]; split <;> rfl

@[simp] theorem trainStep_training :
    (trainStep fw args st b).training = st.training := by
  simp only [trainStep]; split <;> rfl

@[simp] theorem trainStep_optStepCount :
    (trainStep fw args st b).optStepCount = st.optStepCount + 1 := by
  simp only [trainStep]; split <;> rfl

@[simp] theorem trainStep_iter :
    (trainStep fw args st b).iter_ = st.iter_ + 1 := by
  simp only [trainStep]; split <;> rfl

theorem trainStep_logCount :
    (trainStep fw args st b).logCount =
      if st.iter_ % args.niter = 0 then st.logCount + 1 else st.logCount := by
  simp only [trainStep]; split <;> rfl

theorem trainStep_logCount_ge :
    st.logCount ≤ (trainStep fw args st b).logCount := by
  rw [trainStep_logCount]; split <;> omega

@[simp] theorem trainStep_report_num_words :
    (trainStep fw args st b).report_num_words =
      st.report_num_words + sentsLenMinusOneSum b := by
  simp only [trainStep]; split <;> rfl

@[simp] theorem trainStep_report_num_sents :
    (trainStep fw args st b).report_num_sents =
      st.report_num_sents + b.data.length := by
  simp only [trainStep]; split <;> rfl

@[simp] theorem trainStep_report_rec_loss :
    (trainStep fw args st b).report_rec_loss =
      st.report_rec_loss + (fw.lossFn st.params b).1.sum := by
  simp only [trainStep]; split <;> rfl

@[simp] theorem trainStep_report_kl_loss :
    (trainStep fw args st b).report_kl_loss =
      st.report_kl_loss + (fw.lossFn st.params b).2.sum := by
  simp only [trainStep]; split <;> rfl

theorem trainStep_trace :
    (trainStep fw args st b).trace =
      st.trace ++
        [Event.zeroGrad,
         Event.computeLoss (fw.lossFn st.params b).1.sum (fw.lossFn st.params b).2.sum,
         Event.backwardLoss
           (((fw.lossFn st.params b).1.sum + 1 * (fw.lossFn st.params b).2.sum) /
             (b.data.length : ℚ)),
         Event.clipGradNorm args.clip_grad,
         Event.optStep] := by
  simp only [trainStep]
  split <;> simp

variable (r : ℚ × ℚ × ℚ × ℝ)

@[simp] theorem updateBest_params : (updateBest r st).params = st.params := by
  simp only [updateBest]; split <;> rfl

@[simp] theorem updateBest_lr : (updateBest r st).lr_ = st.lr_ := by
  simp only [updateBest]; split <;> rfl

@[simp] theorem updateBest_optimizer :
    (updateBest r st).optimizer = st.optimizer := by
  simp only [updateBest]; split <;> rfl

@[simp] theorem updateBest_iter : (updateBest r st).iter_ = st.iter_ := by
  simp only [updateBest]; split <;> rfl

@[simp] theorem updateBest_optStepCount :
    (updateBest r st).optStepCount = st.optStepCount := by
  simp only [updateBest]; split <;> rfl

@[simp] theorem updateBest_logCount :
    (updateBest r st).logCount = st.logCount := by
  simp only [updateBest]; split <;> rfl

@[simp] theorem updateBest_evalCount :
    (updateBest r st).evalCount = st.evalCount := by
  simp only [updateBest]; split <;> rfl

theorem updateBest_of_not_lt (h : ¬ r.1 < st.best_loss) : updateBest r st = st := by
  simp only [updateBest]; rw [if_neg h]

theorem updateBest_best_loss_of_not_lt (h : ¬ r.1 < st.best_loss) :
    (updateBest r st).best_loss = st.best_loss := by
  rw [updateBest_of_not_lt st r h]

variable (testData : List Batch)

@[simp] theorem evalBlock_params :
    (evalBlock fw testData st).params = st.params := by
  simp [evalBlock]

@[simp] theorem evalBlock_lr : (evalBlock fw testData st).lr_ = st.lr_ := by
  simp [evalBlock]

@[simp] theorem evalBlock_optimizer :
    (evalBlock fw testData st).optimizer = st.optimizer := by
  simp [evalBlock]

@[simp] theorem evalBlock_iter : (evalBlock fw testData st).iter_ = st.iter_ := by
  simp [evalBlock]

@[simp] theorem evalBlock_optStepCount :
    (evalBlock fw testData st).optStepCount = st.optStepCount := by
  simp [evalBlock]

@[simp] theorem evalBlock_logCount :
    (evalBlock fw testData st).logCount = st.logCount := by
  simp [evalBlock]

@[simp] theorem evalBlock_evalCount :
    (evalBlock fw testData st).evalCount = st.evalCount + 1 := by
  simp [evalBlock]

@[simp] theorem decayBlock_counts :
    (decayBlock fw args st).optStepCount = st.optStepCount ∧
    (decayBlock fw args st).logCount = st.logCount ∧
    (decayBlock fw args st).evalCount = st.evalCount ∧
    (decayBlock fw args st).saveCount = st.saveCount := by
  simp [decayBlock]

@[simp] theorem decayBlock_lr :
    (decayBlock fw args st).lr_ = st.lr_ * args.lr_decay := by
  simp [decayBlock]

@[simp] theorem decayBlock_optimizer :
    (decayBlock fw args st).optimizer =
      ⟨st.lr_ * args.lr_decay, fw.initM⟩ := by
  simp [decayBlock]

@[simp] theorem epochReset_lr : (epochReset st).lr_ = st.lr_ := rfl

@[simp] theorem epochReset_params : (epochReset st).params = st.params := rfl

@[simp] theorem epochReset_iter : (epochReset st).iter_ = st.iter_ := rfl

@[simp] theorem epochReset_optStepCount :
    (epochReset st).optStepCount = st.optStepCount := rfl

@[simp] theorem epochReset_logCount : (epochReset st).logCount = st.logCount := rfl

@[simp] theorem epochReset_evalCount :
    (epochReset st).evalCount = st.evalCount := rfl

@[simp] theorem epochReset_saveCount :
    (epochReset st).saveCount = st.saveCount := rfl

end ProjectionLemmas

theorem foldl_trainStep_lr (fw : Framework P G M) (args : Args)
    (td : List Batch) (st : RunState P G M) :
    (td.foldl (trainStep fw args) st).lr_ = st.lr_ := by
  induction td generalizing st with
  | nil => rfl
  | cons b td ih => simp [List.foldl_cons, ih]

theorem foldl_trainStep_optimizer_lr (fw : Framework P G M) (args : Args)
    (td : List Batch) (st : RunState P G M) :
    (td.foldl (trainStep fw args) st).optimizer.lr = st.optimizer.lr := by
  induction td generalizing st with
  | nil => rfl
  | cons b td ih =>
    rw [List.foldl_cons, ih]
    simp only [trainStep]; split <;> rfl

/-- A trivial concrete framework instance over unit types, used to
instantiate the generic theorems on concrete runs. -/
def fwU : Framework Unit Unit Unit :=
  { lossFn := fun _ _ => ([], []),
    backward := fun _ _ => (),
    clipFn := fun _ _ => (),
    stepFn := fun _ _ _ => ((), ()),
    initM := () }

/-- A concrete framework whose losses are huge constants (one per sentence
of the batch). -/
def fwBig : Framework Unit Unit Unit :=
  { lossFn := fun _ b => (b.data.map (fun _ => 20000), b.data.map (fun _ => 0)),
    backward := fun _ _ => (),
    clipFn := fun _ _ => (),
    stepFn := fun _ _ _ => ((), ()),
    initM := () }

/-- A concrete argument record (defaults of the script, small epoch count). -/
def argsU : Args :=
  { epochs := 1, batch_size := 2, lr := 1, lr_decay := 1/2, clip_grad := 5,
    niter := 1, nepoch := 1 }

/-- A concrete two-token sentence (start and end symbols only). -/
def sentU : Sentence := ⟨[0, 1]⟩

/-- A concrete one-sentence batch with true length 2. -/
def batchU : Batch := ⟨[sentU], [2]⟩

/-- C1: the evaluation routine returns the tuple
`(avg_loss, nll, kl, ppl)` with
`avg_loss = (total_rec_loss + total_kl_loss) / total_sentences`,
`nll = avg_loss`, `kl = total_kl_loss / total_sentences`, and
`ppl = exp (nll * total_sentences / total_words)`. -/
theorem test_returns_claimed_tuple (fw : Framework P G M) (p : P)
    (td : List Batch) :
    test fw p td =
      ((totalRec fw p td + totalKl fw p td) / (totalSents td : ℚ),
       (totalRec fw p td + totalKl fw p td) / (totalSents td : ℚ),
       totalKl fw p td / (totalSents td : ℚ),
       Real.exp
         ((((totalRec fw p td + totalKl fw p td) / (totalSents td : ℚ) : ℚ) : ℝ) *
           (totalSents td : ℝ) / (totalWords td : ℝ))) := by
  simp only [test, testAcc_eq]
  rw [add_comm (totalKl fw p td) (totalRec fw p td)]

/-- C2: each processed batch (in training and in evaluation) increases
`report_num_words` by the sum over the batch's sequences of
`true_length - 1` (`sents_len` counts both the start and end symbols, so
the start token is never counted and the end token is). -/
theorem report_num_words_delta (fw : Framework P G M) (args : Args) (p : P)
    (st : RunState P G M) (acc : EvalAcc) (b : Batch) :
    (trainStep fw args st b).report_num_words =
      st.report_num_words + (b.sentsLen.map (fun l => l - 1)).sum ∧
    (testStep fw p acc b).report_num_words =
      acc.report_num_words + (b.sentsLen.map (fun l => l - 1)).sum := by
  constructor
  · rw [trainStep_report_num_words]; rfl
  · rfl

/-- C3: the best-checkpoint record (best loss/nll/kl/ppl plus the saved
parameters) is updated if and only if the evaluation loss is strictly
below the recorded best; a tie triggers neither a record update nor a
save. -/
theorem best_record_update_iff (r : ℚ × ℚ × ℚ × ℝ) (st : RunState P G M) :
    (((updateBest r st).saveCount = st.saveCount + 1 ∧
      (updateBest r st).best_loss = r.1 ∧
      (updateBest r st).best_nll = r.2.1 ∧
      (updateBest r st).best_kl = r.2.2.1 ∧
      (updateBest r st).best_ppl = r.2.2.2) ↔ r.1 < st.best_loss) ∧
    (r.1 = st.best_loss → updateBest r st = st) ∧
    (¬ r.1 < st.best_loss → updateBest r st = st) := by
  by_cases h : r.1 < st.best_loss
  · refine ⟨⟨fun _ => h, fun _ => ?_⟩, fun he => absurd h (by rw [he]; exact lt_irrefl _),
      fun hn => absurd h hn⟩
    simp [updateBest, if_pos h]
  · refine ⟨⟨fun hc => ?_, fun hc => absurd hc h⟩,
      fun _ => updateBest_of_not_lt st r h, fun _ => updateBest_of_not_lt st r h⟩
    rw [updateBest_of_not_lt st r h] at hc
    omega

/-- Witness for C3: at a tie (evaluation loss equal to the recorded best,
here the sentinel `1e4`) the state is unchanged. -/
theorem best_record_update_iff_witness :
    updateBest ((10000 : ℚ), (0 : ℚ), (0 : ℚ), (0 : ℝ)) (initState fwU argsU ()) =
      initState fwU argsU () :=
  (best_record_update_iff ((10000 : ℚ), (0 : ℚ), (0 : ℚ), (0 : ℝ))
    (initState fwU argsU ())).2.1 rfl

/-- C5: a training step performs, in order, exactly the framework
operations: clear gradients, compute `(rec_loss, kl_loss)`, back-propagate
the total loss `(rec_loss + kl_weight * kl_loss) / batch_size` with
`kl_weight = 1.0` (each loss first summed to a scalar over the batch),
clip the global gradient norm to `clip_grad`, and take one optimizer step;
and it adds the summed `rec_loss`, summed `kl_loss`, the word count and
the sentence count to the epoch accumulators. -/
theorem trainStep_performs_claimed_ops (fw : Framework P G M) (args : Args)
    (st : RunState P G M) (b : Batch) :
    (trainStep fw args st b).trace =
      st.trace ++
        [Event.zeroGrad,
         Event.computeLoss (fw.lossFn st.params b).1.sum (fw.lossFn st.params b).2.sum,
         Event.backwardLoss
           (((fw.lossFn st.params b).1.sum + 1 * (fw.lossFn st.params b).2.sum) /
             (b.data.length : ℚ)),
         Event.clipGradNorm args.clip_grad,
         Event.optStep] ∧
    (trainStep fw args st b).report_rec_loss =
      st.report_rec_loss + (fw.lossFn st.params b).1.sum ∧
    (trainStep fw args st b).report_kl_loss =
      st.report_kl_loss + (fw.lossFn st.params b).2.sum ∧
    (trainStep fw args st b).report_num_words =
      st.report_num_words + sentsLenMinusOneSum b ∧
    (trainStep fw args st b).report_num_sents =
      st.report_num_sents + b.data.length ∧
    (trainStep fw args st b).optStepCount = st.optStepCount + 1 :=
  ⟨trainStep_trace fw args st b, trainStep_report_rec_loss fw args st b,
   trainStep_report_kl_loss fw args st b, trainStep_report_num_words fw args st b,
   trainStep_report_num_sents fw args st b, trainStep_optStepCount fw args st b⟩

theorem epochStep_lr_eq (fw : Framework P G M) (args : Args)
    (trainData testData : List Batch) (e : ℕ) (st : RunState P G M) :
    (epochStep fw args trainData testData e st).lr_ =
      if pyMod ((e : ℚ) + 1) (schedule args) = 0
      then st.lr_ * args.lr_decay else st.lr_ := by
  by_cases hd : pyMod ((e : ℚ) + 1) (schedule args) = 0 <;>
    by_cases he : e % args.nepoch = 0 <;>
      simp [epochStep, hd, he, foldl_trainStep_lr]

theorem epochStep_optimizer_of_fires (fw : Framework P G M) (args : Args)
    (trainData testData : List Batch) (e : ℕ) (st : RunState P G M)
    (hd : pyMod ((e : ℚ) + 1) (schedule args) = 0) :
    (epochStep fw args trainData testData e st).optimizer =
      ⟨st.lr_ * args.lr_decay, fw.initM⟩ := by
  by_cases he : e % args.nepoch = 0 <;>
    simp [epochStep, hd, he, foldl_trainStep_lr]

theorem runEpochs_zero (fw : Framework P G M) (args : Args)
    (trainData testData : List Batch) (st : RunState P G M) :
    runEpochs fw args trainData testData 0 st = st := rfl

theorem runEpochs_succ (fw : Framework P G M) (args : Args)
    (trainData testData : List Batch) (n : ℕ) (st : RunState P G M) :
    runEpochs fw args trainData testData (n + 1) st =
      epochStep fw args trainData testData n
        (runEpochs fw args trainData testData n st) := rfl

theorem runEpochs_lr_nonneg (fw : Framework P G M) (args : Args)
    (trainData testData : List Batch) (p0 : P)
    (h0 : 0 ≤ args.lr) (hd : 0 ≤ args.lr_decay) (n : ℕ) :
    0 ≤ (runEpochs fw args trainData testData n (initState fw args p0)).lr_ := by
  induction n with
  | zero => exact h0
  | succ n ih =>
    rw [runEpochs_succ, epochStep_lr_eq]
    split
    · exact mul_nonneg ih hd
    · exact ih

/-- C4 (amended): learning-rate decay fires exactly when
`(epoch+1) mod (epochs/5) == 0`; each firing multiplies the current rate
by `lr_decay` and reconstructs the optimizer with the new rate and fresh
(adaptive-moment) state; and for `0 ≤ lr_decay ≤ 1` and a nonnegative
initial rate the learning-rate sequence is monotonically non-increasing. -/
theorem lr_decay_schedule_spec (fw : Framework P G M) (args : Args)
    (trainData testData : List Batch) (p0 : P) :
    (∀ e : ℕ, (runEpochs fw args trainData testData (e + 1) (initState fw args p0)).lr_ =
        (if pyMod ((e : ℚ) + 1) (schedule args) = 0
         then (runEpochs fw args trainData testData e (initState fw args p0)).lr_ *
                args.lr_decay
         else (runEpochs fw args trainData testData e (initState fw args p0)).lr_)) ∧
    (∀ e : ℕ, pyMod ((e : ℚ) + 1) (schedule args) = 0 →
        (runEpochs fw args trainData testData (e + 1) (initState fw args p0)).optimizer =
          ⟨(runEpochs fw args trainData testData e (initState fw args p0)).lr_ *
             args.lr_decay, fw.initM⟩) ∧
    (0 ≤ args.lr → 0 ≤ args.lr_decay → args.lr_decay ≤ 1 →
      ∀ e : ℕ, (runEpochs fw args trainData testData (e + 1) (initState fw args p0)).lr_ ≤
        (runEpochs fw args trainData testData e (initState fw args p0)).lr_) := by
  refine ⟨fun e => ?_, fun e hd => ?_, fun h0 hd hd1 e => ?_⟩
  · rw [runEpochs_succ, epochStep_lr_eq]
  · rw [runEpochs_succ, epochStep_optimizer_of_fires fw args trainData testData e _ hd]
  · rw [runEpochs_succ, epochStep_lr_eq]
    split
    · calc (runEpochs fw args trainData testData e (initState fw args p0)).lr_ *
            args.lr_decay
          ≤ (runEpochs fw args trainData testData e (initState fw args p0)).lr_ * 1 :=
            mul_le_mul_of_nonneg_left hd1
              (runEpochs_lr_nonneg fw args trainData testData p0 h0 hd e)
        _ = (runEpochs fw args trainData testData e (initState fw args p0)).lr_ :=
            mul_one _
    · exact le_refl _

/-- Witness for C4: with the script's defaults (`lr = 1`, `lr_decay = 1/2`)
the rate does not increase across an epoch boundary. -/
theorem lr_decay_schedule_spec_witness :
    (runEpochs fwU argsU [] [] 2 (initState fwU argsU ())).lr_ ≤
      (runEpochs fwU argsU [] [] 1 (initState fwU argsU ())).lr_ :=
  (lr_decay_schedule_spec fwU argsU [] [] ()).2.2 (by norm_num [argsU])
    (by norm_num [argsU]) (by norm_num [argsU]) 1

/-- Arguments exhibiting the counterexample to C4's monotonicity clause:
`lr_decay = -1 ≤ 1`. -/
def argsCx : Args :=
  { epochs := 10, batch_size := 32, lr := 1, lr_decay := -1, clip_grad := 5,
    niter := 50, nepoch := 1 }

/-- Counterexample to C4 as stated: with `epochs = 10`, `lr = 1` and
`lr_decay = -1 ≤ 1`, decay fires at epochs 1 and 3, giving the rate
sequence `1, 1, -1, -1, 1, …` — the rate strictly increases from epoch 3
to epoch 4, so `lr_decay ≤ 1` alone does not make the sequence
monotonically non-increasing. -/
theorem lr_decay_not_monotone_cx :
    argsCx.lr_decay ≤ 1 ∧
    ¬ (∀ e, (runEpochs fwU argsCx [] [] (e + 1) (initState fwU argsCx ())).lr_ ≤
        (runEpochs fwU argsCx [] [] e (initState fwU argsCx ())).lr_) := by
  have hsch : schedule argsCx = 2 := by norm_num [schedule, argsCx]
  have s0 : (runEpochs fwU argsCx [] [] 0 (initState fwU argsCx ())).lr_ = 1 := rfl
  have s1 : (runEpochs fwU argsCx [] [] 1 (initState fwU argsCx ())).lr_ = 1 := by
    show (epochStep fwU argsCx [] [] 0
      (runEpochs fwU argsCx [] [] 0 (initState fwU argsCx ()))).lr_ = 1
    rw [epochStep_lr_eq, s0, hsch, if_neg (by norm_num [pyMod])]
  have s2 : (runEpochs fwU argsCx [] [] 2 (initState fwU argsCx ())).lr_ = -1 := by
    show (epochStep fwU argsCx [] [] 1
      (runEpochs fwU argsCx [] [] 1 (initState fwU argsCx ()))).lr_ = -1
    rw [epochStep_lr_eq, s1, hsch, if_pos (by norm_num [pyMod])]
    norm_num [argsCx]
  have s3 : (runEpochs fwU argsCx [] [] 3 (initState fwU argsCx ())).lr_ = -1 := by
    show (epochStep fwU argsCx [] [] 2
      (runEpochs fwU argsCx [] [] 2 (initState fwU argsCx ()))).lr_ = -1
    rw [epochStep_lr_eq, s2, hsch, if_neg (by norm_num [pyMod])]
  have s4 : (runEpochs fwU argsCx [] [] 4 (initState fwU argsCx ())).lr_ = 1 := by
    show (epochStep fwU argsCx [] [] 3
      (runEpochs fwU argsCx [] [] 3 (initState fwU argsCx ()))).lr_ = 1
    rw [epochStep_lr_eq, s3, hsch, if_pos (by norm_num [pyMod])]
    norm_num [argsCx]
  refine ⟨by norm_num [argsCx], fun h => ?_⟩
  have h3 := h 3
  rw [s4, s3] at h3
  norm_num at h3

/-- C6: the periodic-evaluation block leaves the model parameters
untouched, so evaluating again on the same dataset returns the identical
`(avg_loss, nll, kl, ppl)` tuple. -/
theorem evaluation_idempotent (fw : Framework P G M) (testData : List Batch)
    (st : RunState P G M) :
    (evalBlock fw testData st).params = st.params ∧
    test fw (evalBlock fw testData st).params testData =
      test fw st.params testData := by
  refine ⟨evalBlock_params fw st testData, ?_⟩
  rw [evalBlock_params]


/-- Well-formed batch per the data model: the true-length list is parallel
to the sentence list, and every true length counts both the start and end
symbols, hence is at least 2. -/
def WFBatch (b : Batch) : Prop :=
  b.sentsLen.length = b.data.length ∧ ∀ l ∈ b.sentsLen, 2 ≤ l

theorem sum_ge_length_of_one_le {l : List ℤ} (h : ∀ x ∈ l, 1 ≤ x) :
    (l.length : ℤ) ≤ l.sum := by
  induction l with
  | nil => simp
  | cons x xs ih =>
    have hx := h x (by simp)
    have hxs := ih (fun y hy => h y (by simp [hy]))
    simp only [List.length_cons, List.sum_cons]
    push_cast
    omega

theorem sentsLenMinusOneSum_nonneg {b : Batch} (hb : ∀ l ∈ b.sentsLen, 2 ≤ l) :
    0 ≤ sentsLenMinusOneSum b := by
  refine List.sum_nonneg ?_
  intro x hx
  obtain ⟨l, hl, rfl⟩ := List.mem_map.mp hx
  have := hb l hl
  omega

theorem sentsLenMinusOneSum_ge_length {b : Batch} (hb : ∀ l ∈ b.sentsLen, 2 ≤ l) :
    (b.sentsLen.length : ℤ) ≤ sentsLenMinusOneSum b := by
  have h1 : ∀ x ∈ b.sentsLen.map (fun l => l - 1), 1 ≤ x := by
    intro x hx
    obtain ⟨l, hl, rfl⟩ := List.mem_map.mp hx
    have := hb l hl
    omega
  have := sum_ge_length_of_one_le h1
  simpa [sentsLenMinusOneSum] using this

/-- C8: with nonnegative accumulated NLL and a strictly positive word
count, the perplexity `exp (nll * report_num_sents / report_num_words)`
returned by the evaluation routine is at least 1. -/
theorem ppl_ge_one (fw : Framework P G M) (p : P) (td : List Batch)
    (h1 : 0 ≤ (test fw p td).2.1)
    (h2 : 0 < (testAcc fw p td).report_num_words) :
    1 ≤ (test fw p td).2.2.2 := by
  have hw : (0 : ℝ) ≤ ((testAcc fw p td).report_num_words : ℝ) := by
    exact_mod_cast le_of_lt h2
  simp only [test] at h1 ⊢
  rw [show (1 : ℝ) = Real.exp 0 from (Real.exp_zero).symm]
  apply Real.exp_le_exp.mpr
  apply div_nonneg _ hw
  apply mul_nonneg _ (by positivity)
  exact_mod_cast h1

/-- Witness for C8: a one-batch dataset with one sentence of true length 2
and reconstruction loss 20000 has nll = 20000 ≥ 0, word count 1 > 0, and
perplexity at least 1. -/
theorem ppl_ge_one_witness : 1 ≤ (test fwBig () [batchU]).2.2.2 :=
  ppl_ge_one fwBig () [batchU]
    (by norm_num [test, testAcc, testStep, batchU, sentU, fwBig, sentsLenMinusOneSum])
    (by norm_num [testAcc, testStep, batchU, sentU, sentsLenMinusOneSum])

/-- C9: on an empty dataset the evaluation accumulators all stay 0 (so the
final averaging would divide by zero); under the precondition that the
batches are well formed and at least one batch holds at least one
sentence, both divisors of the routine — `report_num_sents` (used three
times) and `report_num_words` (used in the perplexity exponent) — are
strictly positive. -/
theorem eval_divisors (fw : Framework P G M) (p : P) :
    testAcc fw p [] = ⟨0, 0, 0, 0⟩ ∧
    ∀ td : List Batch, (∀ b ∈ td, WFBatch b) → (∃ b ∈ td, 1 ≤ b.data.length) →
      0 < (testAcc fw p td).report_num_sents ∧
      0 < (testAcc fw p td).report_num_words := by
  refine ⟨rfl, fun td hwf ⟨b0, hb0, hb0len⟩ => ?_⟩
  rw [testAcc_eq]
  constructor
  · have hmem : b0.data.length ∈ td.map (fun b => b.data.length) :=
      List.mem_map_of_mem _ hb0
    have := List.single_le_sum (fun (x : ℕ) _ => Nat.zero_le x) _ hmem
    simp only [totalSents]
    omega
  · simp only [totalWords]
    have hb0wf := hwf b0 hb0
    have hterm : (1 : ℤ) ≤ sentsLenMinusOneSum b0 := by
      have h1 := sentsLenMinusOneSum_ge_length hb0wf.2
      rw [hb0wf.1] at h1
      have : (1 : ℤ) ≤ (b0.data.length : ℤ) := by exact_mod_cast hb0len
      omega
    have hmem : sentsLenMinusOneSum b0 ∈ td.map sentsLenMinusOneSum :=
      List.mem_map_of_mem _ hb0
    have hle := List.single_le_sum
      (fun x hx => ?_) _ hmem
    · omega
    · obtain ⟨b, hb, rfl⟩ := List.mem_map.mp hx
      exact sentsLenMinusOneSum_nonneg (hwf b hb).2

/-- Witness for C9: the singleton dataset `[batchU]` is well formed, has a
batch with one sentence, and both divisors are positive on it. -/
theorem eval_divisors_witness :
    0 < (testAcc fwU () [batchU]).report_num_sents ∧
    0 < (testAcc fwU () [batchU]).report_num_words :=
  (eval_divisors fwU ()).2 [batchU]
    (by
      intro b hb
      rw [List.mem_singleton] at hb
      subst hb
      exact ⟨rfl, by norm_num [batchU]⟩)
    ⟨batchU, by simp, by norm_num [batchU]⟩

theorem foldl_trainStep_optStepCount (fw : Framework P G M) (args : Args)
    (td : List Batch) (st : RunState P G M) :
    (td.foldl (trainStep fw args) st).optStepCount = st.optStepCount + td.length := by
  induction td generalizing st with
  | nil => simp
  | cons b t ih =>
    rw [List.foldl_cons, ih, trainStep_optStepCount]
    simp only [List.length_cons]
    omega

theorem foldl_trainStep_evalCount (fw : Framework P G M) (args : Args)
    (td : List Batch) (st : RunState P G M) :
    (td.foldl (trainStep fw args) st).evalCount = st.evalCount := by
  induction td generalizing st with
  | nil => rfl
  | cons b t ih => rw [List.foldl_cons, ih, trainStep_evalCount]

theorem foldl_trainStep_logCount_ge (fw : Framework P G M) (args : Args)
    (td : List Batch) (st : RunState P G M) :
    st.logCount ≤ (td.foldl (trainStep fw args) st).logCount := by
  induction td generalizing st with
  | nil => exact le_refl _
  | cons b t ih =>
    rw [List.foldl_cons]
    exact le_trans (trainStep_logCount_ge fw args st b) (ih _)

theorem epochStep_optStepCount (fw : Framework P G M) (args : Args)
    (trainData testData : List Batch) (e : ℕ) (st : RunState P G M) :
    (epochStep fw args trainData testData e st).optStepCount =
      (trainData.foldl (trainStep fw args) (epochReset st)).optStepCount := by
  by_cases hd : pyMod ((e : ℚ) + 1) (schedule args) = 0 <;>
    by_cases he : e % args.nepoch = 0 <;>
      simp [epochStep, hd, he, decayBlock]

theorem epochStep_logCount (fw : Framework P G M) (args : Args)
    (trainData testData : List Batch) (e : ℕ) (st : RunState P G M) :
    (epochStep fw args trainData testData e st).logCount =
      (trainData.foldl (trainStep fw args) (epochReset st)).logCount := by
  by_cases hd : pyMod ((e : ℚ) + 1) (schedule args) = 0 <;>
    by_cases he : e % args.nepoch = 0 <;>
      simp [epochStep, hd, he, decayBlock]

theorem epochStep_evalCount (fw : Framework P G M) (args : Args)
    (trainData testData : List Batch) (e : ℕ) (st : RunState P G M) :
    (epochStep fw args trainData testData e st).evalCount =
      (trainData.foldl (trainStep fw args) (epochReset st)).evalCount +
        (if e % args.nepoch = 0 then 1 else 0) := by
  by_cases hd : pyMod ((e : ℚ) + 1) (schedule args) = 0 <;>
    by_cases he : e % args.nepoch = 0 <;>
      simp [epochStep, hd, he, decayBlock]

/-- The C7 scenario: one epoch, batch size 2, validation every epoch, and
the report interval `niter` under test. -/
def c7Args (niter : ℕ) : Args :=
  { epochs := 1, batch_size := 2, lr := 1, lr_decay := 1/2, clip_grad := 5,
    niter := niter, nepoch := 1 }

/-- C7: with `epochs = 1`, `batch_size = 2`, a 4-sentence corpus and
`1 ≤ niter ≤ 2`, the training loop takes exactly `ceil(4/2) = 2` optimizer
steps, logs at least once, and invokes the evaluation routine exactly
once. -/
theorem end_to_end_counts (fw : Framework P G M) (p0 : P)
    (s1 s2 s3 s4 : Sentence) (testData : List Batch) (niter : ℕ)
    (h1 : 1 ≤ niter) (h2 : niter ≤ 2) :
    (runMain fw (c7Args niter) (dataIter [s1, s2, s3, s4] 2) testData p0).optStepCount = 2 ∧
    1 ≤ (runMain fw (c7Args niter) (dataIter [s1, s2, s3, s4] 2) testData p0).logCount ∧
    (runMain fw (c7Args niter) (dataIter [s1, s2, s3, s4] 2) testData p0).evalCount = 1 := by
  have hrm : runMain fw (c7Args niter) (dataIter [s1, s2, s3, s4] 2) testData p0 =
      epochStep fw (c7Args niter) (dataIter [s1, s2, s3, s4] 2) testData 0
        (initState fw (c7Args niter) p0) := rfl
  have hdi : dataIter [s1, s2, s3, s4] 2 =
      [⟨[s1, s2], [(s1.tokens.length : ℤ), (s2.tokens.length : ℤ)]⟩,
       ⟨[s3, s4], [(s3.tokens.length : ℤ), (s4.tokens.length : ℤ)]⟩] := rfl
  refine ⟨?_, ?_, ?_⟩
  · rw [hrm, epochStep_optStepCount, foldl_trainStep_optStepCount, hdi]
    rfl
  · rw [hrm, epochStep_logCount, hdi]
    rw [List.foldl_cons]
    refine le_trans ?_ (foldl_trainStep_logCount_ge _ _ _ _)
    rw [trainStep_logCount]
    have hiter : (epochReset (initState fw (c7Args niter) p0)).iter_ = 0 := rfl
    rw [hiter, if_pos (Nat.zero_mod _)]
    exact Nat.le_add_left 1 _
  · rw [hrm, epochStep_evalCount, foldl_trainStep_evalCount]
    rfl

/-- Witness for C7: the concrete scenario with `niter = 1`, the trivial
framework and a corpus of four two-token sentences. -/
theorem end_to_end_counts_witness :
    (1 : ℕ) ≤ 1 ∧ (1 : ℕ) ≤ 2 ∧
    ((runMain fwU (c7Args 1) (dataIter [sentU, sentU, sentU, sentU] 2) [] ()).optStepCount = 2 ∧
     1 ≤ (runMain fwU (c7Args 1) (dataIter [sentU, sentU, sentU, sentU] 2) [] ()).logCount ∧
     (runMain fwU (c7Args 1) (dataIter [sentU, sentU, sentU, sentU] 2) [] ()).evalCount = 1) :=
  ⟨le_refl 1, by norm_num,
   end_to_end_counts fwU () sentU sentU sentU sentU [] 1 (le_refl 1) (by norm_num)⟩

/-- The five best-checkpoint fields of `st1` agree with those of `st0`. -/
def KeepsBest (st1 st0 : RunState P G M) : Prop :=
  st1.saveCount = st0.saveCount ∧ st1.best_loss = st0.best_loss ∧
  st1.best_nll = st0.best_nll ∧ st1.best_kl = st0.best_kl ∧
  st1.best_ppl = st0.best_ppl

theorem keepsBest_refl (st : RunState P G M) : KeepsBest st st :=
  ⟨rfl, rfl, rfl, rfl, rfl⟩

theorem keepsBest_trans {s2 s1 s0 : RunState P G M}
    (h21 : KeepsBest s2 s1) (h10 : KeepsBest s1 s0) : KeepsBest s2 s0 :=
  ⟨h21.1.trans h10.1, h21.2.1.trans h10.2.1, h21.2.2.1.trans h10.2.2.1,
   h21.2.2.2.1.trans h10.2.2.2.1, h21.2.2.2.2.trans h10.2.2.2.2⟩

theorem keepsBest_trainStep (fw : Framework P G M) (args : Args)
    (st : RunState P G M) (b : Batch) : KeepsBest (trainStep fw args st b) st :=
  ⟨trainStep_saveCount fw args st b, trainStep_best_loss fw args st b,
   trainStep_best_nll fw args st b, trainStep_best_kl fw args st b,
   trainStep_best_ppl fw args st b⟩

theorem keepsBest_foldl (fw : Framework P G M) (args : Args)
    (td : List Batch) (st : RunState P G M) :
    KeepsBest (td.foldl (trainStep fw args) st) st := by
  induction td generalizing st with
  | nil => exact keepsBest_refl st
  | cons b t ih =>
    rw [List.foldl_cons]
    exact keepsBest_trans (ih _) (keepsBest_trainStep fw args st b)

theorem keepsBest_epochReset (st : RunState P G M) :
    KeepsBest (epochReset st) st := ⟨rfl, rfl, rfl, rfl, rfl⟩

theorem keepsBest_decayBlock (fw : Framework P G M) (args : Args)
    (st : RunState P G M) : KeepsBest (decayBlock fw args st) st :=
  ⟨rfl, rfl, rfl, rfl, rfl⟩

theorem keepsBest_evalBlock (fw : Framework P G M) (testData : List Batch)
    (st : RunState P G M)
    (h : st.best_loss ≤ (test fw st.params testData).1) :
    KeepsBest (evalBlock fw testData st) st := by
  simp only [evalBlock, updateBest]
  rw [if_neg (by simpa using not_lt.mpr h)]
  exact ⟨rfl, rfl, rfl, rfl, rfl⟩

theorem keepsBest_epochStep (fw : Framework P G M) (args : Args)
    (trainData testData : List Batch) (e : ℕ) (st : RunState P G M)
    (h : e % args.nepoch = 0 →
      (trainData.foldl (trainStep fw args) (epochReset st)).best_loss ≤
        (test fw (trainData.foldl (trainStep fw args) (epochReset st)).params
          testData).1) :
    KeepsBest (epochStep fw args trainData testData e st) st := by
  have hmid : KeepsBest (trainData.foldl (trainStep fw args) (epochReset st)) st :=
    keepsBest_trans (keepsBest_foldl fw args trainData (epochReset st))
      (keepsBest_epochReset st)
  by_cases he : e % args.nepoch = 0
  · have heval := keepsBest_evalBlock fw testData _ (h he)
    by_cases hd : pyMod ((e : ℚ) + 1) (schedule args) = 0
    · show KeepsBest
        (if pyMod ((e : ℚ) + 1) (schedule args) = 0
         then decayBlock fw args
           (if e % args.nepoch = 0
            then evalBlock fw testData (trainData.foldl (trainStep fw args) (epochReset st))
            else trainData.foldl (trainStep fw args) (epochReset st))
         else
           (if e % args.nepoch = 0
            then evalBlock fw testData (trainData.foldl (trainStep fw args) (epochReset st))
            else trainData.foldl (trainStep fw args) (epochReset st))) st
      rw [if_pos hd, if_pos he]
      exact keepsBest_trans
        (keepsBest_trans (keepsBest_decayBlock fw args _) heval) hmid
    · show KeepsBest
        (if pyMod ((e : ℚ) + 1) (schedule args) = 0
         then decayBlock fw args
           (if e % args.nepoch = 0
            then evalBlock fw testData (trainData.foldl (trainStep fw args) (epochReset st))
            else trainData.foldl (trainStep fw args) (epochReset st))
         else
           (if e % args.nepoch = 0
            then evalBlock fw testData (trainData.foldl (trainStep fw args) (epochReset st))
            else trainData.foldl (trainStep fw args) (epochReset st))) st
      rw [if_neg hd, if_pos he]
      exact keepsBest_trans heval hmid
  · by_cases hd : pyMod ((e : ℚ) + 1) (schedule args) = 0
    · show KeepsBest
        (if pyMod ((e : ℚ) + 1) (schedule args) = 0
         then decayBlock fw args
           (if e % args.nepoch = 0
            then evalBlock fw testData (trainData.foldl (trainStep fw args) (epochReset st))
            else trainData.foldl (trainStep fw args) (epochReset st))
         else
           (if e % args.nepoch = 0
            then evalBlock fw testData (trainData.foldl (trainStep fw args) (epochReset st))
            else trainData.foldl (trainStep fw args) (epochReset st))) st
      rw [if_pos hd, if_neg he]
      exact keepsBest_trans (keepsBest_decayBlock fw args _) hmid
    · show KeepsBest
        (if pyMod ((e : ℚ) + 1) (schedule args) = 0
         then decayBlock fw args
           (if e % args.nepoch = 0
            then evalBlock fw testData (trainData.foldl (trainStep fw args) (epochReset st))
            else trainData.foldl (trainStep fw args) (epochReset st))
         else
           (if e % args.nepoch = 0
            then evalBlock fw testData (trainData.foldl (trainStep fw args) (epochReset st))
            else trainData.foldl (trainStep fw args) (epochReset st))) st
      rw [if_neg hd, if_neg he]
      exact hmid

/-- The state just before epoch `e`'s periodic evaluation would run: the
state after epoch `e`'s inner training loop. -/
noncomputable def preEvalState (fw : Framework P G M) (args : Args)
    (trainData testData : List Batch) (p0 : P) (e : ℕ) : RunState P G M :=
  trainData.foldl (trainStep fw args)
    (epochReset (runEpochs fw args trainData testData e (initState fw args p0)))

theorem keepsBest_runEpochs (fw : Framework P G M) (args : Args)
    (trainData testData : List Batch) (p0 : P) (n : ℕ) (hn : n ≤ args.epochs)
    (H : ∀ e : ℕ, e < args.epochs → e % args.nepoch = 0 →
      10000 ≤ (test fw (preEvalState fw args trainData testData p0 e).params
        testData).1) :
    KeepsBest (runEpochs fw args trainData testData n (initState fw args p0))
      (initState fw args p0) := by
  induction n with
  | zero => exact keepsBest_refl _
  | succ n ih =>
    have ihn := ih (by omega)
    rw [runEpochs_succ]
    refine keepsBest_trans (keepsBest_epochStep fw args trainData testData n _
      (fun he => ?_)) ihn
    have hbest : (trainData.foldl (trainStep fw args)
        (epochReset (runEpochs fw args trainData testData n
          (initState fw args p0)))).best_loss = 10000 := by
      have h1 := keepsBest_trans
        (keepsBest_foldl fw args trainData
          (epochReset (runEpochs fw args trainData testData n (initState fw args p0))))
        (keepsBest_epochReset _)
      exact (keepsBest_trans h1 ihn).2.1
    rw [hbest]
    exact H n (by omega) he

/-- C10: `best_loss` starts at the sentinel `1e4` (not at the first
evaluation result), and in any run whose every periodic evaluation loss is
at least `1e4`, no checkpoint is ever saved and the final summary reports
`best_loss = 1e4` with `best_nll = best_kl = best_ppl = 0`. -/
theorem sentinel_best_record (fw : Framework P G M) (args : Args)
    (trainData testData : List Batch) (p0 : P)
    (H : ∀ e : ℕ, e < args.epochs → e % args.nepoch = 0 →
      10000 ≤ (test fw (preEvalState fw args trainData testData p0 e).params
        testData).1) :
    (initState fw args p0).best_loss = 10000 ∧
    (runMain fw args trainData testData p0).saveCount = 0 ∧
    (runMain fw args trainData testData p0).best_loss = 10000 ∧
    (runMain fw args trainData testData p0).best_nll = 0 ∧
    (runMain fw args trainData testData p0).best_kl = 0 ∧
    (runMain fw args trainData testData p0).best_ppl = 0 := by
  have hk := keepsBest_runEpochs fw args trainData testData p0 args.epochs
    (le_refl _) H
  exact ⟨rfl, hk.1, hk.2.1, hk.2.2.1, hk.2.2.2.1, hk.2.2.2.2⟩

/-- The C10 witness scenario's hyperparameters. -/
def args10 : Args :=
  { epochs := 1, batch_size := 2, lr := 1, lr_decay := 1/2, clip_grad := 5,
    niter := 50, nepoch := 1 }

/-- Witness for C10: with constant per-sentence reconstruction loss 20000,
the single evaluation loss is 20000 ≥ 1e4, so nothing is saved and the
sentinel summary is reported. -/
theorem sentinel_best_record_witness :
    (initState fwBig args10 ()).best_loss = 10000 ∧
    (runMain fwBig args10 [batchU] [batchU] ()).saveCount = 0 ∧
    (runMain fwBig args10 [batchU] [batchU] ()).best_loss = 10000 ∧
    (runMain fwBig args10 [batchU] [batchU] ()).best_nll = 0 ∧
    (runMain fwBig args10 [batchU] [batchU] ()).best_kl = 0 ∧
    (runMain fwBig args10 [batchU] [batchU] ()).best_ppl = 0 :=
  sentinel_best_record fwBig args10 [batchU] [batchU] ()
    (by
      intro e he hm
      have hep : args10.epochs = 1 := rfl
      have he0 : e = 0 := by omega
      subst he0
      norm_num [test, testAcc, testStep, batchU, sentU, fwBig,
        sentsLenMinusOneSum])
